import Mathlib

/-!
Shallow embedding of the expense-agent repository (backend/index.js,
backend/ingest.js) together with theorems checking the natural-language
specification against it.

Conventions of the embedding:
* JavaScript strings are `String`, JavaScript numbers used as claim amounts
  are `ℚ`, a possibly-absent value is `Option`.
* The external Supabase claims table is a `List ExpenseClaim`; the outcome of
  an insert or select call is passed in explicitly, since the database is an
  external collaborator.
* The LLM-driven agent executor is an oracle function
  `String → ChatHistory → Except String String` passed to the HTTP handler.
* Text handled by the chunker is a `List Char`.
-/

namespace ExpenseAgent

/-- Message roles used by the backend: the prompt template has a system part
(index.js line 133), and `chatHistory` stores `"human"` and `"ai"` turns
(index.js lines 180-181). -/
inductive Role
  | system
  | human
  | ai
deriving DecidableEq

/-- One conversation turn as stored in `chatHistory`: `{ role, content }`. -/
structure ChatTurn where
  role : Role
  content : String
deriving DecidableEq

/-- The process-wide in-memory conversation log (index.js line 164). -/
abbrev ChatHistory := List ChatTurn

/-- One row of the external `claims` table as written by the submit tool
(index.js line 83): email, description, amount and status. The
server-generated id and timestamp are added by the external store and are not
part of the inserted values. -/
structure ExpenseClaim where
  email : String
  description : String
  amount : ℚ
  status : String
deriving DecidableEq

/-- Modelled from the spec and the zod library: a character admitted anywhere
in the local part of `z.string().email()` (letters, digits, underscore,
apostrophe (code 39), plus, hyphen, dot). The zod validator itself is library
code not present in this repository. -/
def zodLocalChar (c : Char) : Bool :=
  c.isAlphanum || c = '_' || c.toNat = 39 || c = '+' || c = '-' || c = '.'

/-- Modelled from the spec and the zod library: the character that must end
the local part (no dot and no apostrophe allowed there). -/
def zodLocalLastChar (c : Char) : Bool :=
  c.isAlphanum || c = '_' || c = '+' || c = '-'

/-- The local part is nonempty, ends in a `zodLocalLastChar` and otherwise
consists of `zodLocalChar`s. -/
def zodLocalOK (l : List Char) : Bool :=
  match l.reverse with
  | [] => false
  | c :: rest => zodLocalLastChar c && rest.all zodLocalChar

/-- A domain label starts with a letter or digit followed by letters, digits
or hyphens. -/
def zodLabelOK : List Char → Bool
  | [] => false
  | c :: rest => c.isAlphanum && rest.all (fun d => d.isAlphanum || d = '-')

/-- The top-level domain is at least two letters. -/
def zodTldOK (l : List Char) : Bool :=
  decide (2 ≤ l.length) && l.all Char.isAlpha

/-- No two consecutive dots anywhere in the address. -/
def noDoubleDot : List Char → Bool
  | [] => true
  | [_] => true
  | a :: b :: rest => !(a = '.' && b = '.') && noDoubleDot (b :: rest)

/-- The domain is one or more labels followed by a dot-separated TLD. -/
def zodDomainOK (d : List Char) : Bool :=
  match (d.splitOn '.').reverse with
  | [] => false
  | [_] => false
  | tld :: labelsRev => zodTldOK tld && labelsRev.all zodLabelOK

/-- Modelled from the spec: the email-format check `z.string().email()` used
by both tool schemas (index.js lines 75 and 101) lives in the zod library,
not in this repository; this follows its documented regular expression:
exactly one `@`, a valid local part, a valid domain, no leading dot and no
consecutive dots. -/
def isValidEmail (s : String) : Bool :=
  match s.data.splitOn '@' with
  | [localPart, domain] =>
      localPart.head? != some '.' && noDoubleDot s.data &&
        zodLocalOK localPart && zodDomainOK domain
  | _ => false

/-- Arguments of the submit-claim tool after zod has checked their types:
`email : string`, `description : string`, `amount : number` (index.js lines
74-78). Note the schema constrains `amount` only to be a number. -/
structure SubmitArgs where
  email : String
  description : String
  amount : ℚ
deriving DecidableEq

/-- Outcome of the external `client.from("claims").insert(...)` call: either
the row was stored, or the store reports an error and no row was stored. -/
inductive DbWrite
  | ok
  | err (msg : String)
deriving DecidableEq

/-- The confirmation string built at index.js line 89. -/
def submitSuccessMessage (email : String) : String :=
  "Successfully submitted expense claim for " ++ email ++
    ". The details have been recorded in the database."

/-- The string returned by the catch block at index.js line 92. -/
def submitFailureMessage : String :=
  "Failed to submit expense claim due to an internal error."

/-- The `func` of `expenseClaimTool` (index.js lines 79-94): insert one row
with status `Submitted`; on a store error the thrown error is caught and the
fixed failure string is returned with the store unchanged. -/
def submitClaimFunc (args : SubmitArgs) (db : DbWrite)
    (store : List ExpenseClaim) : String × List ExpenseClaim :=
  match db with
  | .ok =>
      (submitSuccessMessage args.email,
        store ++ [⟨args.email, args.description, args.amount, "Submitted"⟩])
  | .err _ => (submitFailureMessage, store)

/-- Result of invoking a `DynamicStructuredTool`: either the schema rejected
the arguments (a structured validation error, the handler never ran) or the
handler ran and produced its result text. -/
inductive ToolOutcome
  | validationError (msg : String)
  | result (text : String)
deriving DecidableEq

/-- Modelled from the spec: `DynamicStructuredTool` (library code) validates
the arguments against the zod schema before calling `func`; on validation
failure the handler must not run and a structured validation error is
returned (spec 4.3). The only value-level constraint in the schema at
index.js lines 74-78 is the email format. -/
def submitClaimTool (args : SubmitArgs) (db : DbWrite)
    (store : List ExpenseClaim) : ToolOutcome × List ExpenseClaim :=
  if isValidEmail args.email then
    ((ToolOutcome.result (submitClaimFunc args db store).1),
      (submitClaimFunc args db store).2)
  else
    (ToolOutcome.validationError "Invalid email", store)

/-- One row as selected by the get-user-claims tool (index.js line 107):
`id, description, amount, status, created_at`. The date is kept as the
already-rendered string: `toLocaleDateString` is a locale-dependent library
call, and no claim depends on the rendering. -/
structure ClaimRow where
  id : Nat
  description : String
  amount : ℚ
  status : String
  createdAt : String
deriving DecidableEq

/-- The message for the empty result (index.js line 113). -/
def noClaimsMessage (email : String) : String :=
  "No past claims found for " ++ email ++ "."

/-- The string returned by the catch block at index.js line 123. -/
def claimsFailureMessage : String :=
  "Failed to retrieve claims due to an internal error."

/-- Header of the formatted claim list (index.js line 120). -/
def claimsListHeader (email : String) : String :=
  "Here are the past claims for " ++ email ++ ":\n"

/-- One formatted claim line (index.js line 117); the numeric amount is
rendered by its canonical rational notation in this model. -/
def formatClaimRow (row : ClaimRow) : String :=
  "- Claim ID " ++ toString row.id ++ ": " ++ row.description ++ " for $" ++
    toString row.amount ++ " (Status: " ++ row.status ++ ", Submitted on: " ++
    row.createdAt ++ ")"

/-- The `func` of `getUserClaimsTool` (index.js lines 103-125). The select
outcome is `.error` for a store error, `.ok none` for a null result and
`.ok (some rows)` otherwise, matching the `!data || data.length === 0` test. -/
def getUserClaimsFunc (email : String)
    (db : Except String (Option (List ClaimRow))) : String :=
  match db with
  | .error _ => claimsFailureMessage
  | .ok none => noClaimsMessage email
  | .ok (some rows) =>
      if rows.isEmpty then noClaimsMessage email
      else claimsListHeader email ++
        String.intercalate "\n" (rows.map formatClaimRow)

/-- Modelled from the spec: the zod schema of `getUserClaimsTool` (index.js
lines 100-102) is checked by the library before `func` runs, as for the
submit tool. -/
def getUserClaimsTool (email : String)
    (db : Except String (Option (List ClaimRow))) : ToolOutcome :=
  if isValidEmail email then ToolOutcome.result (getUserClaimsFunc email db)
  else ToolOutcome.validationError "Invalid email"

/-- The system instructions of the agent prompt (index.js lines 133-144);
quotes around tool names appear as character 39 escapes. -/
def systemInstructions : String :=
  "You are a friendly and helpful AI assistant for corporate expenses. Your goal is to make handling expenses as easy as possible.\n\nIf a user asks what you can do, introduce yourself and clearly explain your three main functions.\n\n1.  **Answering Questions**: Answer questions about the corporate expense policy. You MUST use the \x27expense_policy_search\x27 tool for this.\n2.  **Submitting Claims**: Submit a new expense claim. You MUST use the \x27submit_expense_claim\x27 tool after collecting the required details (email, description, and amount).\n3.  **Checking Past Claims**: Retrieve a list of all past claims for a user. You MUST use the \x27get_user_claims\x27 tool and ask for their email address.\n\n**CRITICAL RULES**:\n- NEVER confirm that a claim has been submitted unless the \x27submit_expense_claim\x27 tool has been successfully called and has returned a success message.\n- If a user provides all the details for a claim in a single message, you MUST call the \x27submit_expense_claim\x27 tool with those details. Do not just reply that it is done without using the tool.\n- Do not answer policy questions from memory. Always use the \x27expense_policy_search\x27 tool."

/-- The prompt assembled by `agentPrompt` (index.js lines 132-148): the
system instructions, the chat-history placeholder, the human input, then the
agent scratchpad. -/
def agentMessages (hist : ChatHistory) (input : String)
    (scratchpad : List ChatTurn) : List ChatTurn :=
  ⟨Role.system, systemInstructions⟩ ::
    (hist ++ [⟨Role.human, input⟩] ++ scratchpad)

/-- A JSON payload sent by the `/chat` handler: either `{response: ...}` or
`{error: ...}`. -/
inductive JsonBody
  | response (s : String)
  | error (s : String)
deriving DecidableEq

/-- Everything observable about one run of the `/chat` handler: HTTP status,
JSON payload, the value of `chatHistory` afterwards, and the list of
`agentExecutor.invoke` calls made, each recorded with the `input` and the
`chat_history` value it was given. -/
structure ChatResult where
  status : Nat
  body : JsonBody
  hist : ChatHistory
  orchCalls : List (String × ChatHistory)
deriving DecidableEq

/-- The `POST /chat` handler (index.js lines 166-190). `body?` is the
`message` field of the request body; JavaScript truthiness makes both an
absent message and the empty string take the 400 branch (`if (!message)`).
On success the handler invokes the agent executor with the current history,
then pushes the human turn and the ai turn and answers 200; if the executor
throws it answers 500 and pushes nothing. -/
def handleChat (orch : String → ChatHistory → Except String String)
    (body? : Option String) (hist : ChatHistory) : ChatResult :=
  match body? with
  | none => ⟨400, JsonBody.error "Message is required", hist, []⟩
  | some message =>
      if message = "" then
        ⟨400, JsonBody.error "Message is required", hist, []⟩
      else
        match orch message hist with
        | .ok output =>
            ⟨200, JsonBody.response output,
              hist ++ [⟨Role.human, message⟩, ⟨Role.ai, output⟩],
              [(message, hist)]⟩
        | .error _ =>
            ⟨500, JsonBody.error "Failed to get a response from the agent.",
              hist, [(message, hist)]⟩

/-- One request made against the server: the optional `message` field and the
behaviour of the (nondeterministic, model-driven) agent executor during that
request. -/
structure Request where
  body : Option String
  orch : String → ChatHistory → Except String String

/-- The effect of one request on the shared `chatHistory`. -/
def serverStep (hist : ChatHistory) (req : Request) : ChatHistory :=
  (handleChat req.orch req.body hist).hist

/-- The shared `chatHistory` after a sequence of requests, starting from the
empty history of index.js line 164. -/
def serverRun (reqs : List Request) : ChatHistory :=
  reqs.foldl serverStep []

/-- `chatHistory` alternates human/ai pairs: even length, strictly
alternating roles starting with human. -/
def alternatesHumanAi : ChatHistory → Bool
  | [] => true
  | ⟨Role.human, _⟩ :: ⟨Role.ai, _⟩ :: rest => alternatesHumanAi rest
  | _ => false

/-- An agent oracle that always succeeds with a fixed answer. -/
def constOkOrch : String → ChatHistory → Except String String :=
  fun _ _ => Except.ok "ok"

/-- An agent oracle that always throws. -/
def constFailOrch : String → ChatHistory → Except String String :=
  fun _ _ => Except.error "boom"

/-- The chunk size configured at ingest.js line 32. -/
def chunkSize : Nat := 1000

/-- The chunk overlap configured at ingest.js line 33. -/
def chunkOverlap : Nat := 200

/-- Distance between the starts of consecutive chunks. -/
def chunkStep : Nat := chunkSize - chunkOverlap

/-- Modelled from the spec: the `RecursiveCharacterTextSplitter` instantiated
at ingest.js lines 31-34 is library code not present in this repository; this
follows the chunking policy of spec 4.1: greedily take up to `chunkSize`
characters, carry the trailing `chunkOverlap` characters of one chunk into
the start of the next, materialize the whole list, empty input gives the
empty sequence. The fuel argument bounds the recursion by the text length. -/
def chunksAux : Nat → List Char → List (List Char)
  | 0, _ => []
  | _, [] => []
  | Nat.succ fuel, t =>
      if t.length ≤ chunkSize then [t]
      else t.take chunkSize :: chunksAux fuel (t.drop chunkStep)

/-- Modelled from the spec: `chunk(text, size=1000, overlap=200)` of spec
4.1, see `chunksAux`. -/
def chunkText (t : List Char) : List (List Char) :=
  chunksAux t.length t

/-- Concatenation of the tail chunks with the leading `chunkOverlap`
characters (the part carried over from the predecessor) removed. -/
def tailConcat : List (List Char) → List Char
  | [] => []
  | c :: rest => c.drop chunkOverlap ++ tailConcat rest

/-- Concatenation of a chunk list after removing from every chunk but the
first the overlap carried from its predecessor. -/
def joinWithOverlapRemoved : List (List Char) → List Char
  | [] => []
  | c :: rest => c ++ tailConcat rest

/-- The environment variables the repository reads at startup. -/
structure Env where
  supabaseKey : Option String
  supabaseUrl : Option String
  googleApiKey : Option String

/-- JavaScript truthiness of an environment value: absent and empty are both
falsy (`if (!privateKey)`). -/
def envPresent : Option String → Bool
  | none => false
  | some s => !(s = "")

/-- The key-check error thrown by the `ChatGoogleGenerativeAI` and
`GoogleGenerativeAIEmbeddings` constructors when no API key is available. -/
def googleKeyError : String :=
  "Please set an API key for Google GenerativeAI"

/-- The fatal startup path of the backend. `SUPABASE_KEY` and `SUPABASE_URL`
are checked by index.js lines 33-36 and a missing one throws at module load.
Modelled from the spec: `GOOGLE_API_KEY` is then handed to the
`ChatGoogleGenerativeAI` and `GoogleGenerativeAIEmbeddings` constructors
(index.js lines 40-49) — library code not in this repository — which throw at
module load when no key is available, before `app.listen` at line 194; spec 7
classifies a missing required secret as a ConfigurationError, fatal before
serving. `.ok` means module evaluation completed and the server serves. -/
def backendStartup (env : Env) : Except String Unit :=
  if !envPresent env.supabaseKey then Except.error "Expected SUPABASE_KEY"
  else if !envPresent env.supabaseUrl then Except.error "Expected SUPABASE_URL"
  else if !envPresent env.googleApiKey then Except.error googleKeyError
  else Except.ok ()

/-- The startup checks of the ingest script (ingest.js lines 10-17): all
three of `SUPABASE_KEY`, `SUPABASE_URL`, `GOOGLE_API_KEY` are checked and a
missing one throws. -/
def ingestStartup (env : Env) : Except String Unit :=
  if !envPresent env.supabaseKey then Except.error "Expected SUPABASE_KEY"
  else if !envPresent env.supabaseUrl then Except.error "Expected SUPABASE_URL"
  else if !envPresent env.googleApiKey then Except.error "Expected GOOGLE_API_KEY"
  else Except.ok ()

/-! ## Lemmas about the chunker -/

lemma chunksAux_nil (fuel : Nat) : chunksAux fuel [] = [] := by
  cases fuel <;> rfl

lemma chunksAux_fuel : ∀ (f1 f2 : Nat) (t : List Char), t.length ≤ f1 →
    t.length ≤ f2 → chunksAux f1 t = chunksAux f2 t := by
  intro f1
  induction f1 with
  | zero =>
    intro f2 t h1 _
    have ht : t = [] := List.eq_nil_of_length_eq_zero (Nat.le_zero.mp h1)
    subst ht
    rw [chunksAux_nil, chunksAux_nil]
  | succ f1 ih =>
    intro f2 t h1 h2
    cases t with
    | nil => rw [chunksAux_nil, chunksAux_nil]
    | cons a t2 =>
      cases f2 with
      | zero => simp at h2
      | succ f2 =>
        simp only [chunksAux]
        by_cases hle : (a :: t2).length ≤ chunkSize
        · rw [if_pos hle, if_pos hle]
        · rw [if_neg hle, if_neg hle]
          congr 1
          apply ih
          · simp only [List.length_drop, List.length_cons] at h1 ⊢
            simp only [chunkSize, chunkStep, chunkOverlap, List.length_cons,
              not_le] at hle ⊢
            omega
          · simp only [List.length_drop, List.length_cons] at h2 ⊢
            simp only [chunkSize, chunkStep, chunkOverlap, List.length_cons,
              not_le] at hle ⊢
            omega

lemma chunkText_nil : chunkText [] = [] := rfl

lemma chunkText_short (t : List Char) (h0 : t ≠ []) (h : t.length ≤ chunkSize) :
    chunkText t = [t] := by
  cases t with
  | nil => exact absurd rfl h0
  | cons a t2 =>
    show chunksAux (a :: t2).length (a :: t2) = [a :: t2]
    simp only [List.length_cons, chunksAux]
    rw [if_pos]
    exact h

lemma chunkText_long (t : List Char) (h : chunkSize < t.length) :
    chunkText t = t.take chunkSize :: chunkText (t.drop chunkStep) := by
  cases t with
  | nil => simp [chunkSize] at h
  | cons a t2 =>
    show chunksAux (a :: t2).length (a :: t2) = _
    simp only [List.length_cons, chunksAux]
    have hgt : ¬ (t2.length + 1 ≤ chunkSize) := by
      simp only [List.length_cons] at h
      omega
    rw [if_neg hgt]
    congr 1
    apply chunksAux_fuel
    · simp only [List.length_drop, List.length_cons]
      simp only [chunkSize, chunkStep, chunkOverlap, List.length_cons] at h ⊢
      omega
    · exact le_refl _

lemma tailConcat_chunk : ∀ (n : Nat) (t : List Char), t.length ≤ n → t ≠ [] →
    tailConcat (chunkText t) = t.drop chunkOverlap := by
  intro n
  induction n with
  | zero =>
    intro t h1 h0
    exact absurd (List.eq_nil_of_length_eq_zero (Nat.le_zero.mp h1)) h0
  | succ n ih =>
    intro t h1 h0
    by_cases hle : t.length ≤ chunkSize
    · rw [chunkText_short t h0 hle]
      simp [tailConcat]
    · rw [chunkText_long t (not_le.mp hle)]
      have hne : t.drop chunkStep ≠ [] := by
        intro hcon
        have := congrArg List.length hcon
        simp only [List.length_drop, List.length_nil] at this
        simp only [chunkSize, chunkStep, chunkOverlap, not_le] at hle this
        omega
      have hlen : (t.drop chunkStep).length ≤ n := by
        rw [List.length_drop]
        have hstep : chunkStep = 800 := rfl
        rw [hstep]
        omega
      show (t.take chunkSize).drop chunkOverlap ++ tailConcat (chunkText (t.drop chunkStep)) = _
      rw [ih (t.drop chunkStep) hlen hne]
      rw [List.drop_take chunkSize chunkOverlap t, List.drop_drop]
      rw [show chunkSize - chunkOverlap = chunkStep from rfl]
      rw [show chunkStep + chunkOverlap = chunkOverlap + chunkStep from Nat.add_comm _ _]
      rw [← List.drop_drop]
      exact List.take_append_drop chunkStep (t.drop chunkOverlap)

lemma joinWithOverlapRemoved_chunkText (t : List Char) :
    joinWithOverlapRemoved (chunkText t) = t := by
  by_cases h0 : t = []
  · subst h0; rfl
  by_cases hle : t.length ≤ chunkSize
  · rw [chunkText_short t h0 hle]
    show t ++ tailConcat [] = t
    simp [tailConcat]
  · rw [chunkText_long t (not_le.mp hle)]
    have hne : t.drop chunkStep ≠ [] := by
      intro hcon
      have := congrArg List.length hcon
      simp only [List.length_drop, List.length_nil] at this
      simp only [chunkSize, chunkStep, chunkOverlap, not_le] at hle this
      omega
    show t.take chunkSize ++ tailConcat (chunkText (t.drop chunkStep)) = t
    rw [tailConcat_chunk (t.drop chunkStep).length (t.drop chunkStep) (le_refl _) hne]
    rw [List.drop_drop]
    rw [show chunkStep + chunkOverlap = chunkSize from rfl]
    exact List.take_append_drop chunkSize t

/-! ## Lemmas about the fixed message strings -/

lemma submitFailureMessage_ne_success (email : String) :
    submitFailureMessage ≠ submitSuccessMessage email := by
  intro h
  have hd : submitFailureMessage.data.head? =
      (submitSuccessMessage email).data.head? :=
    congrArg (fun s => s.data.head?) h
  rw [show submitFailureMessage.data.head? = some 'F' from rfl,
    show (submitSuccessMessage email).data.head? = some 'S' from rfl] at hd
  exact (by decide : (some 'F' : Option Char) ≠ some 'S') hd

lemma noClaimsMessage_ne_failure (email : String) :
    noClaimsMessage email ≠ claimsFailureMessage := by
  intro h
  have hd : (noClaimsMessage email).data.head? =
      claimsFailureMessage.data.head? :=
    congrArg (fun s => s.data.head?) h
  rw [show (noClaimsMessage email).data.head? = some 'N' from rfl,
    show claimsFailureMessage.data.head? = some 'F' from rfl] at hd
  exact (by decide : (some 'N' : Option Char) ≠ some 'F') hd

lemma noClaimsMessage_ne_list (email s : String) :
    noClaimsMessage email ≠ claimsListHeader email ++ s := by
  intro h
  have hd : (noClaimsMessage email).data.head? =
      (claimsListHeader email ++ s).data.head? :=
    congrArg (fun x => x.data.head?) h
  rw [show (noClaimsMessage email).data.head? = some 'N' from rfl,
    show (claimsListHeader email ++ s).data.head? = some 'H' from rfl] at hd
  exact (by decide : (some 'N' : Option Char) ≠ some 'H') hd

/-! ## Lemmas about the chat handler -/

lemma handleChat_none (orch : String → ChatHistory → Except String String)
    (hist : ChatHistory) :
    handleChat orch none hist =
      ⟨400, JsonBody.error "Message is required", hist, []⟩ := rfl

lemma handleChat_empty (orch : String → ChatHistory → Except String String)
    (hist : ChatHistory) :
    handleChat orch (some "") hist =
      ⟨400, JsonBody.error "Message is required", hist, []⟩ := rfl

lemma handleChat_ok (orch : String → ChatHistory → Except String String)
    (m : String) (hist : ChatHistory) (out : String) (hm : m ≠ "")
    (h : orch m hist = Except.ok out) :
    handleChat orch (some m) hist =
      ⟨200, JsonBody.response out,
        hist ++ [⟨Role.human, m⟩, ⟨Role.ai, out⟩], [(m, hist)]⟩ := by
  simp only [handleChat]
  rw [if_neg hm, h]

lemma handleChat_error (orch : String → ChatHistory → Except String String)
    (m : String) (hist : ChatHistory) (e : String) (hm : m ≠ "")
    (h : orch m hist = Except.error e) :
    handleChat orch (some m) hist =
      ⟨500, JsonBody.error "Failed to get a response from the agent.",
        hist, [(m, hist)]⟩ := by
  simp only [handleChat]
  rw [if_neg hm, h]

/-! ## Lemmas about the history invariant -/

lemma alternatesHumanAi_append (a b : String) :
    ∀ (h : ChatHistory), alternatesHumanAi h = true →
      alternatesHumanAi (h ++ [⟨Role.human, a⟩, ⟨Role.ai, b⟩]) = true := by
  have main : ∀ (n : Nat) (h : ChatHistory), h.length ≤ n →
      alternatesHumanAi h = true →
      alternatesHumanAi (h ++ [⟨Role.human, a⟩, ⟨Role.ai, b⟩]) = true := by
    intro n
    induction n with
    | zero =>
      intro h hlen ha
      have hnil : h = [] := List.eq_nil_of_length_eq_zero (Nat.le_zero.mp hlen)
      subst hnil
      rfl
    | succ n ih =>
      intro h hlen ha
      rcases h with _ | ⟨⟨r1, c1⟩, _ | ⟨⟨r2, c2⟩, rest⟩⟩
      · rfl
      · cases r1 <;> simp [alternatesHumanAi] at ha
      · cases r1 <;> cases r2 <;>
          simp only [alternatesHumanAi, List.cons_append] at ha ⊢ <;>
          first
            | simp at ha
            | exact ih rest
                (by simp only [List.length_cons] at hlen; omega) ha
  intro h ha
  exact main h.length h (le_refl _) ha

lemma alternatesHumanAi_even_length :
    ∀ (n : Nat) (h : ChatHistory), h.length ≤ n →
      alternatesHumanAi h = true → h.length % 2 = 0 := by
  intro n
  induction n with
  | zero =>
    intro h hlen _
    have hnil : h = [] := List.eq_nil_of_length_eq_zero (Nat.le_zero.mp hlen)
    subst hnil
    rfl
  | succ n ih =>
    intro h hlen ha
    rcases h with _ | ⟨⟨r1, c1⟩, _ | ⟨⟨r2, c2⟩, rest⟩⟩
    · rfl
    · cases r1 <;> simp [alternatesHumanAi] at ha
    · cases r1 <;> cases r2 <;> simp only [alternatesHumanAi] at ha <;>
        first
          | simp at ha
          | (have hrec : rest.length % 2 = 0 := ih rest
              (by simp only [List.length_cons] at hlen; omega) ha
             simp only [List.length_cons]
             omega)

lemma serverStep_cases (hist : ChatHistory) (req : Request) :
    serverStep hist req = hist ∨
    ∃ m out, serverStep hist req =
      hist ++ [⟨Role.human, m⟩, ⟨Role.ai, out⟩] := by
  rcases req with ⟨body?, orch⟩
  cases body? with
  | none => exact Or.inl (congrArg ChatResult.hist (handleChat_none orch hist))
  | some m =>
    by_cases hm : m = ""
    · subst hm
      exact Or.inl (congrArg ChatResult.hist (handleChat_empty orch hist))
    · cases horch : orch m hist with
      | ok out =>
        exact Or.inr ⟨m, out,
          congrArg ChatResult.hist (handleChat_ok orch m hist out hm horch)⟩
      | error e =>
        exact Or.inl (congrArg ChatResult.hist (handleChat_error orch m hist e hm horch))

lemma serverRun_alternates (reqs : List Request) :
    alternatesHumanAi (serverRun reqs) = true := by
  have main : ∀ (rs : List Request) (hist : ChatHistory),
      alternatesHumanAi hist = true →
      alternatesHumanAi (rs.foldl serverStep hist) = true := by
    intro rs
    induction rs with
    | nil => intro hist ha; exact ha
    | cons r rs ih =>
      intro hist ha
      show alternatesHumanAi (rs.foldl serverStep (serverStep hist r)) = true
      rcases serverStep_cases hist r with hsame | ⟨m, out, happ⟩
      · rw [hsame]; exact ih hist ha
      · rw [happ]
        exact ih _ (alternatesHumanAi_append m out hist ha)
  exact main reqs [] rfl

/-! ## Claims -/

/-- C1: for a submit-claim call whose arguments passed validation, a
successful claims-store insert appends exactly one row with status
`Submitted` and the returned text contains the submitter email; a failed
insert returns the fixed failure string, leaves the store unchanged, and that
string is not the success message for any email. -/
theorem submit_claim_success_and_failure (args : SubmitArgs)
    (store : List ExpenseClaim) (hvalid : isValidEmail args.email = true) :
    ((submitClaimTool args DbWrite.ok store).2 =
        store ++ [⟨args.email, args.description, args.amount, "Submitted"⟩] ∧
      ∃ pre post, (submitClaimTool args DbWrite.ok store).1 =
        ToolOutcome.result (pre ++ args.email ++ post)) ∧
    (∀ e, (submitClaimTool args (DbWrite.err e) store).1 =
        ToolOutcome.result submitFailureMessage ∧
      (submitClaimTool args (DbWrite.err e) store).2 = store ∧
      ∀ em, (submitClaimTool args (DbWrite.err e) store).1 ≠
        ToolOutcome.result (submitSuccessMessage em)) := by
  have hif : ∀ db, submitClaimTool args db store =
      (ToolOutcome.result (submitClaimFunc args db store).1,
        (submitClaimFunc args db store).2) := by
    intro db
    unfold submitClaimTool
    rw [if_pos hvalid]
  refine ⟨⟨?_, ?_⟩, ?_⟩
  · rw [hif DbWrite.ok]
    rfl
  · refine ⟨"Successfully submitted expense claim for ",
      ". The details have been recorded in the database.", ?_⟩
    rw [hif DbWrite.ok]
    rfl
  · intro e
    refine ⟨?_, ?_, ?_⟩
    · rw [hif (DbWrite.err e)]
      rfl
    · rw [hif (DbWrite.err e)]
      rfl
    · intro em hcon
      rw [hif (DbWrite.err e)] at hcon
      have h2 : ToolOutcome.result submitFailureMessage =
          ToolOutcome.result (submitSuccessMessage em) := hcon
      injection h2 with h3
      exact submitFailureMessage_ne_success em h3

/-- C1 witness: a concrete valid submission for bob@co.com. -/
theorem submit_claim_success_and_failure_witness :
    isValidEmail "bob@co.com" = true ∧
    (submitClaimTool ⟨"bob@co.com", "taxi", 42⟩ DbWrite.ok []).2 =
      [⟨"bob@co.com", "taxi", 42, "Submitted"⟩] :=
  ⟨by decide,
    (submit_claim_success_and_failure ⟨"bob@co.com", "taxi", 42⟩ []
      (by decide)).1.1⟩

/-- C2 counterexample: the zod schema constrains the amount only to be a
number, so with a valid email and the non-positive amount -5 validation
passes, the handler runs, and a row is inserted — against the claim that a
non-positive amount never reaches the store. -/
theorem submit_claim_positivity_cex :
    ((-5 : ℚ) ≤ 0) ∧ isValidEmail "bob@co.com" = true ∧
    (submitClaimTool ⟨"bob@co.com", "taxi", -5⟩ DbWrite.ok []).2 =
      [⟨"bob@co.com", "taxi", -5, "Submitted"⟩] ∧
    (submitClaimTool ⟨"bob@co.com", "taxi", -5⟩ DbWrite.ok []).1 =
      ToolOutcome.result (submitSuccessMessage "bob@co.com") :=
  ⟨by norm_num, by decide, by decide, by decide⟩

/-- C2 amended: a syntactically invalid email is rejected by the schema, the
handler never runs, no row is inserted and a structured validation error is
returned; amount positivity is not validated. -/
theorem submit_claim_invalid_email_rejected (args : SubmitArgs) (db : DbWrite)
    (store : List ExpenseClaim) (h : isValidEmail args.email = false) :
    submitClaimTool args db store =
      (ToolOutcome.validationError "Invalid email", store) := by
  unfold submitClaimTool
  simp [h]

/-- C2 witness: a concrete rejected submission. -/
theorem submit_claim_invalid_email_rejected_witness :
    isValidEmail "not-an-email" = false ∧
    submitClaimTool ⟨"not-an-email", "taxi", 5⟩ DbWrite.ok [] =
      (ToolOutcome.validationError "Invalid email", []) :=
  ⟨by decide,
    submit_claim_invalid_email_rejected ⟨"not-an-email", "taxi", 5⟩
      DbWrite.ok [] (by decide)⟩

/-- C3 counterexample: the body carries the message string "", the
orchestrator would succeed, yet the handler answers 400 without invoking it,
because `if (!message)` treats the empty string as missing. -/
theorem chat_empty_message_cex :
    (handleChat constOkOrch (some "") []).status = 400 ∧
    (handleChat constOkOrch (some "") []).orchCalls = [] ∧
    (handleChat constOkOrch (some "") []).status ≠ 200 ∧
    (handleChat constOkOrch (some "") []).status ≠ 500 :=
  ⟨rfl, rfl, by decide, by decide⟩

/-- C3 amended: a missing or empty message gives 400 with an error payload; a
non-empty message gives 200 with `{response}` when the orchestrator succeeds
and 500 with `{error}` when it fails; no other status is produced. -/
theorem chat_endpoint_statuses
    (orch : String → ChatHistory → Except String String)
    (body? : Option String) (hist : ChatHistory) :
    ((body? = none ∨ body? = some "") →
      (handleChat orch body? hist).status = 400 ∧
        ∃ e, (handleChat orch body? hist).body = JsonBody.error e) ∧
    (∀ m, body? = some m → m ≠ "" →
      (∀ out, orch m hist = Except.ok out →
        (handleChat orch body? hist).status = 200 ∧
          (handleChat orch body? hist).body = JsonBody.response out) ∧
      (∀ e, orch m hist = Except.error e →
        (handleChat orch body? hist).status = 500 ∧
          ∃ msg, (handleChat orch body? hist).body = JsonBody.error msg)) ∧
    ((handleChat orch body? hist).status = 200 ∨
      (handleChat orch body? hist).status = 400 ∨
      (handleChat orch body? hist).status = 500) := by
  refine ⟨?_, ?_, ?_⟩
  · rintro (hb | hb) <;> subst hb
    · rw [handleChat_none]
      exact ⟨rfl, "Message is required", rfl⟩
    · rw [handleChat_empty]
      exact ⟨rfl, "Message is required", rfl⟩
  · intro m hbm hm
    subst hbm
    constructor
    · intro out hout
      rw [handleChat_ok orch m hist out hm hout]
      exact ⟨rfl, rfl⟩
    · intro e he
      rw [handleChat_error orch m hist e hm he]
      exact ⟨rfl, "Failed to get a response from the agent.", rfl⟩
  · cases body? with
    | none =>
      exact Or.inr (Or.inl (congrArg ChatResult.status (handleChat_none orch hist)))
    | some m =>
      by_cases hm : m = ""
      · subst hm
        exact Or.inr (Or.inl (congrArg ChatResult.status (handleChat_empty orch hist)))
      · cases horch : orch m hist with
        | ok out =>
          exact Or.inl (congrArg ChatResult.status (handleChat_ok orch m hist out hm horch))
        | error e =>
          exact Or.inr (Or.inr (congrArg ChatResult.status (handleChat_error orch m hist e hm horch)))

/-- C3 witness: a concrete non-empty message with a succeeding orchestrator
gives 200 and the response payload. -/
theorem chat_endpoint_statuses_witness :
    (handleChat constOkOrch (some "hi") []).status = 200 ∧
    (handleChat constOkOrch (some "hi") []).body = JsonBody.response "ok" :=
  ((chat_endpoint_statuses constOkOrch (some "hi") []).2.1 "hi" rfl
    (by decide)).1 "ok" rfl

/-- C4: a request without a message answers 400 with an error payload, never
invokes the agent executor, and leaves the chat history unchanged. -/
theorem chat_missing_message_no_effects
    (orch : String → ChatHistory → Except String String)
    (hist : ChatHistory) :
    (handleChat orch none hist).status = 400 ∧
    (∃ e, (handleChat orch none hist).body = JsonBody.error e) ∧
    (handleChat orch none hist).orchCalls = [] ∧
    (handleChat orch none hist).hist = hist :=
  ⟨rfl, ⟨"Message is required", rfl⟩, rfl, rfl⟩

/-- C5: for a valid email whose select returns zero rows (or a null result),
the tool returns the fixed no-claims message naming that email; that message
is neither the failure string nor any formatted claim list. -/
theorem get_user_claims_empty_result (email : String)
    (h : isValidEmail email = true) :
    getUserClaimsTool email (Except.ok (some [])) =
        ToolOutcome.result (noClaimsMessage email) ∧
    getUserClaimsTool email (Except.ok none) =
        ToolOutcome.result (noClaimsMessage email) ∧
    noClaimsMessage email ≠ claimsFailureMessage ∧
    (∀ s, noClaimsMessage email ≠ claimsListHeader email ++ s) := by
  refine ⟨?_, ?_, noClaimsMessage_ne_failure email,
    fun s => noClaimsMessage_ne_list email s⟩
  · unfold getUserClaimsTool
    rw [if_pos h]
    rfl
  · unfold getUserClaimsTool
    rw [if_pos h]
    rfl

/-- C5 witness: the empty result for bob@co.com. -/
theorem get_user_claims_empty_result_witness :
    getUserClaimsTool "bob@co.com" (Except.ok (some [])) =
      ToolOutcome.result (noClaimsMessage "bob@co.com") :=
  (get_user_claims_empty_result "bob@co.com" (by decide)).1

/-- C6 counterexample: the handler invokes the agent executor with the
history value that does not yet contain the new message, and when the
executor fails the turn ends with the history still empty — the user turn
was never appended first. -/
theorem orchestrator_append_order_cex :
    (handleChat constFailOrch (some "hi") []).orchCalls = [("hi", [])] ∧
    (handleChat constFailOrch (some "hi") []).hist = [] ∧
    (handleChat constOkOrch (some "hi") []).orchCalls = [("hi", [])] :=
  ⟨rfl, rfl, rfl⟩

/-- C6 amended: the executor is invoked once with the prior history and the
message as separate input, the assembled prompt context is the history
followed by the message as a human turn, and only after a successful return
are the user turn and one assistant turn appended together; on failure
nothing is appended. -/
theorem orchestrator_turn_protocol
    (orch : String → ChatHistory → Except String String)
    (msg : String) (hist : ChatHistory) (hm : msg ≠ "") :
    (handleChat orch (some msg) hist).orchCalls = [(msg, hist)] ∧
    agentMessages hist msg [] =
      ⟨Role.system, systemInstructions⟩ :: (hist ++ [⟨Role.human, msg⟩]) ∧
    (∀ out, orch msg hist = Except.ok out →
      (handleChat orch (some msg) hist).hist =
        hist ++ [⟨Role.human, msg⟩, ⟨Role.ai, out⟩]) ∧
    (∀ e, orch msg hist = Except.error e →
      (handleChat orch (some msg) hist).hist = hist) := by
  refine ⟨?_, by simp [agentMessages], ?_, ?_⟩
  · cases horch : orch msg hist with
    | ok out => rw [handleChat_ok orch msg hist out hm horch]
    | error e => rw [handleChat_error orch msg hist e hm horch]
  · intro out hout
    rw [handleChat_ok orch msg hist out hm hout]
  · intro e he
    rw [handleChat_error orch msg hist e hm he]

/-- C6 witness: a successful concrete turn appends the pair of turns. -/
theorem orchestrator_turn_protocol_witness :
    (handleChat constOkOrch (some "hi") []).hist =
      [⟨Role.human, "hi"⟩, ⟨Role.ai, "ok"⟩] :=
  (orchestrator_turn_protocol constOkOrch "hi" [] (by decide)).2.2.1 "ok" rfl

/-- C7 counterexample: the empty input is strictly shorter than the chunk
size yet yields the empty chunk sequence, not one (empty) chunk, so the
one-chunk clause fails at the empty input. -/
theorem chunk_empty_input_cex :
    ([] : List Char).length < chunkSize ∧ chunkText ([] : List Char) = [] ∧
    chunkText ([] : List Char) ≠ [([] : List Char)] :=
  ⟨by decide, rfl, by decide⟩

/-- C7 amended: every nonempty input strictly shorter than the chunk size
yields exactly one chunk equal to the input, and the empty input yields the
empty sequence. -/
theorem chunk_short_and_empty (t : List Char) (h0 : t ≠ [])
    (h : t.length < chunkSize) :
    chunkText t = [t] ∧ chunkText ([] : List Char) = [] :=
  ⟨chunkText_short t h0 (Nat.le_of_lt h), rfl⟩

/-- C7 witness: the two-character input yields itself as the only chunk. -/
theorem chunk_short_and_empty_witness :
    chunkText ['h', 'i'] = [['h', 'i']] ∧ chunkText ([] : List Char) = [] :=
  chunk_short_and_empty ['h', 'i'] (by decide) (by decide)

/-- C8: concatenating the chunks after removing from every chunk but the
first the 200-character overlap carried from its predecessor reconstructs the
input exactly. -/
theorem chunk_round_trip (t : List Char) :
    joinWithOverlapRemoved (chunkText t) = t :=
  joinWithOverlapRemoved_chunkText t

/-- C9: whichever required secret is missing from the environment — the
Supabase URL or key, or the LLM/embeddings API key — both the backend and the
ingest script fail fatally at startup, before any request is served. -/
theorem startup_secret_checks (env : Env)
    (h : envPresent env.supabaseKey = false ∨
      envPresent env.supabaseUrl = false ∨
      envPresent env.googleApiKey = false) :
    (∃ e, backendStartup env = Except.error e) ∧
    (∃ e, ingestStartup env = Except.error e) := by
  cases hk : envPresent env.supabaseKey with
  | false =>
    constructor <;>
      exact ⟨"Expected SUPABASE_KEY", by simp [backendStartup, ingestStartup, hk]⟩
  | true =>
    cases hu : envPresent env.supabaseUrl with
    | false =>
      constructor <;>
        exact ⟨"Expected SUPABASE_URL",
          by simp [backendStartup, ingestStartup, hk, hu]⟩
    | true =>
      cases hg : envPresent env.googleApiKey with
      | false =>
        refine ⟨⟨googleKeyError, ?_⟩, ⟨"Expected GOOGLE_API_KEY", ?_⟩⟩
        · simp [backendStartup, hk, hu, hg]
        · simp [ingestStartup, hk, hu, hg]
      | true => rcases h with h | h | h <;> simp_all

/-- C9 witness: a concrete environment missing only the LLM key makes both
startups fail. -/
theorem startup_secret_checks_witness :
    envPresent (none : Option String) = false ∧
    (∃ e, backendStartup ⟨some "key", some "url", none⟩ = Except.error e) ∧
    (∃ e, ingestStartup ⟨some "key", some "url", none⟩ = Except.error e) :=
  ⟨rfl, startup_secret_checks ⟨some "key", some "url", none⟩ (Or.inr (Or.inr rfl))⟩

/-- C10: the shared history is only ever extended, in one step, by a human
turn followed by an ai turn after a successful orchestrator return; any 400
or 500 response leaves it unchanged; hence after any request sequence the
history alternates human/ai pairs and has even length. -/
theorem chat_history_invariant :
    (∀ (orch : String → ChatHistory → Except String String)
        (body? : Option String) (hist : ChatHistory),
      (handleChat orch body? hist).hist = hist ∨
      ∃ m out, body? = some m ∧ orch m hist = Except.ok out ∧
        (handleChat orch body? hist).status = 200 ∧
        (handleChat orch body? hist).hist =
          hist ++ [⟨Role.human, m⟩, ⟨Role.ai, out⟩]) ∧
    (∀ (orch : String → ChatHistory → Except String String)
        (body? : Option String) (hist : ChatHistory),
      ((handleChat orch body? hist).status = 400 ∨
        (handleChat orch body? hist).status = 500) →
      (handleChat orch body? hist).hist = hist) ∧
    (∀ reqs : List Request, alternatesHumanAi (serverRun reqs) = true ∧
      (serverRun reqs).length % 2 = 0) := by
  refine ⟨?_, ?_, ?_⟩
  · intro orch body? hist
    cases body? with
    | none => exact Or.inl (congrArg ChatResult.hist (handleChat_none orch hist))
    | some m =>
      by_cases hm : m = ""
      · subst hm
        exact Or.inl (congrArg ChatResult.hist (handleChat_empty orch hist))
      · cases horch : orch m hist with
        | ok out =>
          exact Or.inr ⟨m, out, rfl, horch,
            congrArg ChatResult.status (handleChat_ok orch m hist out hm horch),
            congrArg ChatResult.hist (handleChat_ok orch m hist out hm horch)⟩
        | error e =>
          exact Or.inl (congrArg ChatResult.hist (handleChat_error orch m hist e hm horch))
  · intro orch body? hist hst
    cases body? with
    | none => exact congrArg ChatResult.hist (handleChat_none orch hist)
    | some m =>
      by_cases hm : m = ""
      · subst hm
        exact congrArg ChatResult.hist (handleChat_empty orch hist)
      · cases horch : orch m hist with
        | ok out =>
          rw [handleChat_ok orch m hist out hm horch] at hst
          simp at hst
        | error e =>
          exact congrArg ChatResult.hist (handleChat_error orch m hist e hm horch)
  · intro reqs
    refine ⟨serverRun_alternates reqs, ?_⟩
    exact alternatesHumanAi_even_length (serverRun reqs).length (serverRun reqs)
      (le_refl _) (serverRun_alternates reqs)

/-- C10 witness: a failed concrete turn leaves the empty history unchanged. -/
theorem chat_history_invariant_witness :
    (handleChat constFailOrch (some "hi") []).hist = [] :=
  chat_history_invariant.2.1 constFailOrch (some "hi") [] (Or.inr rfl)

end ExpenseAgent
